import Mathlib

/-!
Shallow embedding of `src/wgpu/src/backend.rs` (the iced wgpu `Backend`):
`present`, `prepare` and `render` are modelled as producers of an ordered
event trace recording, in chronological order, every pipeline call and
render-pass operation the backend records into the command encoder.

Abstractions, each noted at its definition site:
* Item payloads (quads, meshes, images, text runs) are opaque: the backend
  only tests them for emptiness and hands the slices to the sub-pipelines.
* `(layer.bounds * scale_factor).snap()` is f32 arithmetic; both `prepare`
  and `render` evaluate this identical expression on the same layer, so the
  layer carries its physical (scaled-and-snapped) rectangle directly.
  Likewise `(pipeline.viewport * scale_factor).snap()` for custom pipelines.
* The build is modelled with the `image`/`svg` features enabled, so the
  image pipeline branches are present.
-/

/-- Opaque color payload. The backend forwards `clear_color` into the first
render pass (via `color::pack(c).components()`, a pure re-encoding of the
same color, abstracted away here). -/
structure Color where
  val : Nat
deriving DecidableEq, Repr

/-- A physical-pixel rectangle, the result type of `.snap()`
(`Rectangle<u32>` in the source). -/
structure Rect where
  x : Nat
  y : Nat
  width : Nat
  height : Nat
deriving DecidableEq, Repr

/-- Opaque quad payload (`layer.quads` entries). -/
abbrev Quad := Nat

/-- Opaque mesh payload (`layer.meshes` entries). -/
abbrev Mesh := Nat

/-- Opaque image payload (`layer.images` entries). -/
abbrev RasterImage := Nat

/-- Opaque text-run payload (`layer.text` entries). -/
abbrev TextRun := Nat

/-- A custom-pipeline invocation (`layer.pipelines` entry): opaque identity
plus its viewport, already scaled by the scale factor and snapped (the f32
scale-and-snap is abstracted, see module comment). -/
structure Pipe where
  id : Nat
  viewport : Rect
deriving DecidableEq, Repr

/-- One layer, as consumed by `Backend::prepare` / `Backend::render`:
ordered buckets of same-kind drawables plus the layer's bounds. `bounds`
holds the physical rectangle `(layer.bounds * scale_factor).snap()` (see
module comment). -/
structure Layer where
  bounds : Rect
  quads : List Quad
  meshes : List Mesh
  images : List RasterImage
  text : List TextRun
  pipelines : List Pipe
deriving DecidableEq, Repr

/-- Load operation of a render pass' color attachment. -/
inductive LoadOp where
  | clear (c : Color)
  | load
deriving DecidableEq, Repr

/-- The pipeline kinds on which `present` calls `end_frame`. -/
inductive PKind where
  | quad
  | text
  | triangle
  | image
deriving DecidableEq, Repr

/-- Draw-call kinds, in the source's fixed per-layer emission order. -/
inductive Kind where
  | quad
  | mesh
  | image
  | text
  | custom
deriving DecidableEq, Repr

/-- One observable action of the backend, in the order it is recorded into
the encoder / issued to a sub-pipeline. -/
inductive Event where
  | beginPass (op : LoadOp)
  | endPass
  | prepareQuads (quads : List Quad)
  | prepareMeshes (meshes : List Mesh)
  | prepareImages (images : List RasterImage)
  | prepareText (text : List TextRun)
  | preparePipeline (p : Pipe)
  | stagingFinish
  | renderQuads (layerIndex : Nat) (bounds : Rect) (quads : List Quad)
  | renderMeshes (layerIndex : Nat) (meshes : List Mesh)
  | renderImages (layerIndex : Nat) (bounds : Rect)
  | renderText (layerIndex : Nat) (bounds : Rect)
  | renderPipeline (p : Pipe) (viewport : Rect)
  | endFrame (kind : PKind)
deriving DecidableEq, Repr

/-- The body of the `for layer in layers` loop of `Backend::prepare`
(backend.rs lines 143-211): skip sub-1-pixel layers, then stage each
non-empty kind in the source order quads, meshes, images, text, pipelines. -/
def prepareLayerEvents (layer : Layer) : List Event :=
  if layer.bounds.width < 1 ∨ layer.bounds.height < 1 then []
  else
    (if layer.quads.isEmpty then [] else [.prepareQuads layer.quads])
      ++ (if layer.meshes.isEmpty then [] else [.prepareMeshes layer.meshes])
      ++ (if layer.images.isEmpty then [] else [.prepareImages layer.images])
      ++ (if layer.text.isEmpty then [] else [.prepareText layer.text])
      ++ (if layer.pipelines.isEmpty then []
          else layer.pipelines.map .preparePipeline)

/-- `Backend::prepare`: the loop over `layers`, emitting events in call
order. -/
def prepare (layers : List Layer) : List Event :=
  layers.foldl (fun acc layer => acc ++ prepareLayerEvents layer) []

/-- The custom-pipeline loop inside `Backend::render` (lines 339-353): each
pipeline whose snapped viewport is sub-1-pixel is skipped (`continue`), the
rest are rendered with that viewport. -/
def pipelineEvents (pipelines : List Pipe) : List Event :=
  pipelines.filterMap fun p =>
    if p.viewport.width < 1 ∨ p.viewport.height < 1 then none
    else some (.renderPipeline p p.viewport)

/-- The mutable state of `Backend::render`'s loop: the four per-kind layer
counters and the events recorded so far (chronological order). -/
structure RenderState where
  quadLayer : Nat
  triangleLayer : Nat
  imageLayer : Nat
  textLayer : Nat
  events : List Event
deriving DecidableEq, Repr

/-- The body of the `for layer in layers` loop of `Backend::render`
(backend.rs lines 264-374): skip sub-1-pixel layers; render quads; for
meshes end the shared pass, delegate to the triangle pipeline, reopen with
load; render images, then text; for custom pipelines end the shared pass,
run the pipeline loop, reopen with load. Each kind bumps its own counter
when it rendered. -/
def renderStep (s : RenderState) (layer : Layer) : RenderState :=
  if layer.bounds.width < 1 ∨ layer.bounds.height < 1 then s
  else
    let s1 :=
      if layer.quads.isEmpty then s
      else
        { s with
          events :=
            s.events ++ [.renderQuads s.quadLayer layer.bounds layer.quads]
          quadLayer := s.quadLayer + 1 }
    let s2 :=
      if layer.meshes.isEmpty then s1
      else
        { s1 with
          events :=
            s1.events
              ++ [.endPass, .renderMeshes s1.triangleLayer layer.meshes,
                  .beginPass .load]
          triangleLayer := s1.triangleLayer + 1 }
    let s3 :=
      if layer.images.isEmpty then s2
      else
        { s2 with
          events := s2.events ++ [.renderImages s2.imageLayer layer.bounds]
          imageLayer := s2.imageLayer + 1 }
    let s4 :=
      if layer.text.isEmpty then s3
      else
        { s3 with
          events := s3.events ++ [.renderText s3.textLayer layer.bounds]
          textLayer := s3.textLayer + 1 }
    if layer.pipelines.isEmpty then s4
    else
      { s4 with
        events :=
          s4.events
            ++ [.endPass] ++ pipelineEvents layer.pipelines
            ++ [.beginPass .load] }

/-- Load operation of the frame's first render pass (backend.rs lines
238-251): clear to the caller's color when given, else load. -/
def initLoad : Option Color → LoadOp
  | some c => .clear c
  | none => .load

/-- `Backend::render`: open the initial pass, run the layer loop with all
counters at zero, end the final pass. -/
def render (clearColor : Option Color) (layers : List Layer) : List Event :=
  let s := layers.foldl renderStep
    { quadLayer := 0, triangleLayer := 0, imageLayer := 0, textLayer := 0,
      events := [.beginPass (initLoad clearColor)] }
  s.events ++ [.endPass]

/-- The layer list `Backend::present` operates on (backend.rs lines 92-96):
the generated layers, with the overlay layer pushed when `overlay_text` is
non-empty. `genLayers` stands for `Layer::generate(primitives, viewport)`
and `overlayLayer` for `Layer::overlay(overlay_text, viewport)`; both
constructors live outside `src/` and are universally quantified here. -/
def presentLayers (genLayers : List Layer) (overlayText : List String)
    (overlayLayer : Layer) : List Layer :=
  if overlayText.isEmpty then genLayers else genLayers ++ [overlayLayer]

/-- `Backend::present` (backend.rs lines 75-118): build the layer list,
prepare, finish the staging belt, render, then `end_frame` on the quad,
text, triangle and image pipelines, in that order. -/
def presentEvents (genLayers : List Layer) (overlayText : List String)
    (overlayLayer : Layer) (clearColor : Option Color) : List Event :=
  let layers := presentLayers genLayers overlayText overlayLayer
  prepare layers ++ [.stagingFinish] ++ render clearColor layers
    ++ [.endFrame .quad, .endFrame .text, .endFrame .triangle,
        .endFrame .image]

/-- The sub-1-pixel culling test both loops apply to a layer. -/
def culledB (l : Layer) : Bool :=
  decide (l.bounds.width < 1 ∨ l.bounds.height < 1)

/-- Whether `render` emits a quad draw for this layer. -/
def rendersQuads (l : Layer) : Bool := !culledB l && !l.quads.isEmpty

/-- Whether `render` delegates a mesh draw for this layer. -/
def rendersMeshes (l : Layer) : Bool := !culledB l && !l.meshes.isEmpty

/-- Whether `render` emits an image draw for this layer. -/
def rendersImages (l : Layer) : Bool := !culledB l && !l.images.isEmpty

/-- Whether `render` emits a text draw for this layer. -/
def rendersText (l : Layer) : Bool := !culledB l && !l.text.isEmpty

/-- Whether `render` enters the custom-pipeline block for this layer. -/
def rendersPipes (l : Layer) : Bool := !culledB l && !l.pipelines.isEmpty

/-- Per-layer increment of the quad counter. -/
def qInc (l : Layer) : Nat := if rendersQuads l then 1 else 0

/-- Per-layer increment of the triangle counter. -/
def mInc (l : Layer) : Nat := if rendersMeshes l then 1 else 0

/-- Per-layer increment of the image counter. -/
def iInc (l : Layer) : Nat := if rendersImages l then 1 else 0

/-- Per-layer increment of the text counter. -/
def tInc (l : Layer) : Nat := if rendersText l then 1 else 0

/-- The events one layer contributes to `render`, given the four counters
at the moment the loop reaches it. -/
def layerBlock (q tr im tx : Nat) (layer : Layer) : List Event :=
  if layer.bounds.width < 1 ∨ layer.bounds.height < 1 then []
  else
    (if layer.quads.isEmpty then []
     else [.renderQuads q layer.bounds layer.quads])
      ++ (if layer.meshes.isEmpty then []
          else [.endPass, .renderMeshes tr layer.meshes, .beginPass .load])
      ++ (if layer.images.isEmpty then []
          else [.renderImages im layer.bounds])
      ++ (if layer.text.isEmpty then [] else [.renderText tx layer.bounds])
      ++ (if layer.pipelines.isEmpty then []
          else [.endPass] ++ pipelineEvents layer.pipelines
            ++ [.beginPass .load])

/-- Recursive form of `render`'s loop: the trace is the concatenation of
the per-layer blocks, visited in list order, with the counters advanced by
the per-kind increments. -/
def renderGo (q tr im tx : Nat) : List Layer → List Event
  | [] => []
  | l :: ls =>
      layerBlock q tr im tx l
        ++ renderGo (q + qInc l) (tr + mInc l) (im + iInc l) (tx + tInc l) ls

set_option maxHeartbeats 1000000 in
/-- Load operations of the render passes opened in a trace, in order. -/
def beginOps (tr : List Event) : List LoadOp :=
  tr.filterMap fun e =>
    match e with
    | .beginPass op => some op
    | _ => none

/-- Kind of a draw event, `none` for non-draw events. -/
def drawKind : Event → Option Kind := fun e =>
  match e with
  | .renderQuads _ _ _ => some .quad
  | .renderMeshes _ _ => some .mesh
  | .renderImages _ _ => some .image
  | .renderText _ _ => some .text
  | .renderPipeline _ _ => some .custom
  | _ => none

/-- Position of a kind in the fixed per-layer emission order. -/
def kindRank : Kind → Nat
  | .quad => 0
  | .mesh => 1
  | .image => 2
  | .text => 3
  | .custom => 4

/-- The custom pipelines that survive the sub-1-pixel viewport check. -/
def visiblePipes (ps : List Pipe) : List Pipe :=
  ps.filter fun p =>
    !(decide (p.viewport.width < 1 ∨ p.viewport.height < 1))

/-- Transcription of the spec's fixed kind-ordering: one draw per non-empty
kind, in the order quad, mesh, image, text, then the custom pipelines. -/
def kindSig (l : Layer) : List Kind :=
  if culledB l then []
  else
    (if l.quads.isEmpty then [] else [.quad])
      ++ (if l.meshes.isEmpty then [] else [.mesh])
      ++ (if l.images.isEmpty then [] else [.image])
      ++ (if l.text.isEmpty then [] else [.text])
      ++ List.replicate (visiblePipes l.pipelines).length .custom

/-- Layer indices handed to the quad pipeline, in trace order. -/
def quadIndices (tr : List Event) : List Nat :=
  tr.filterMap fun e =>
    match e with
    | .renderQuads i _ _ => some i
    | _ => none

/-- Layer indices handed to the triangle pipeline, in trace order. -/
def triangleIndices (tr : List Event) : List Nat :=
  tr.filterMap fun e =>
    match e with
    | .renderMeshes i _ => some i
    | _ => none

/-- Layer indices handed to the image pipeline, in trace order. -/
def imageIndices (tr : List Event) : List Nat :=
  tr.filterMap fun e =>
    match e with
    | .renderImages i _ => some i
    | _ => none

/-- Layer indices handed to the text pipeline, in trace order. -/
def textIndices (tr : List Event) : List Nat :=
  tr.filterMap fun e =>
    match e with
    | .renderText i _ => some i
    | _ => none

/-- Number of layers that render quads. -/
def qCount (ls : List Layer) : Nat := (ls.filter fun l => rendersQuads l).length

/-- Number of layers that render meshes. -/
def mCount (ls : List Layer) : Nat :=
  (ls.filter fun l => rendersMeshes l).length

/-- Number of layers that render images. -/
def iCount (ls : List Layer) : Nat :=
  (ls.filter fun l => rendersImages l).length

/-- Number of layers that render text. -/
def tCount (ls : List Layer) : Nat := (ls.filter fun l => rendersText l).length

/-- Per-layer count (0 or 1) of entered custom-pipeline blocks. -/
def pInc (l : Layer) : Nat := if rendersPipes l then 1 else 0

/-- Number of layers whose custom-pipeline block is entered. -/
def pCount (ls : List Layer) : Nat :=
  (ls.filter fun l => rendersPipes l).length

/-- Does a trace event belong to the prepare phase? -/
def isPrepEvent : Event → Bool := fun e =>
  match e with
  | .prepareQuads _ => true
  | .prepareMeshes _ => true
  | .prepareImages _ => true
  | .prepareText _ => true
  | .preparePipeline _ => true
  | _ => false

/-- Is the event a render-pass command (pass management or a draw)? -/
def isPassEvent : Event → Bool := fun e =>
  match e with
  | .beginPass _ => true
  | .endPass => true
  | .renderQuads _ _ _ => true
  | .renderMeshes _ _ => true
  | .renderImages _ _ => true
  | .renderText _ _ => true
  | .renderPipeline _ _ => true
  | _ => false

/-- Is the event an `end_frame` call? -/
def isEndFrameEvent : Event → Bool := fun e =>
  match e with
  | .endFrame _ => true
  | _ => false

/-- Is the event the staging belt's `finish`? -/
def isFinishEvent : Event → Bool := fun e =>
  match e with
  | .stagingFinish => true
  | _ => false

/-- Modelled from the spec: the per-kind layer-index counters held inside
the quad, text, triangle and image pipelines (their implementations are
outside `src/`). A render call of a kind advances that kind's counter and
`end_frame` "resets the per-kind layer-index counter to zero". -/
structure PipeCounters where
  quad : Nat
  text : Nat
  triangle : Nat
  image : Nat
deriving DecidableEq, Repr

/-- Modelled from the spec: effect of one trace event on the pipelines'
internal layer-index counters. -/
def counterStep (c : PipeCounters) (e : Event) : PipeCounters :=
  match e with
  | .renderQuads _ _ _ => { c with quad := c.quad + 1 }
  | .renderText _ _ => { c with text := c.text + 1 }
  | .renderMeshes _ _ => { c with triangle := c.triangle + 1 }
  | .renderImages _ _ => { c with image := c.image + 1 }
  | .endFrame .quad => { c with quad := 0 }
  | .endFrame .text => { c with text := 0 }
  | .endFrame .triangle => { c with triangle := 0 }
  | .endFrame .image => { c with image := 0 }
  | _ => c

/-- Render-pass segments of a frame: each `beginPass` opens one shared pass
on the encoder, and each `renderMeshes` delegates exactly one own
(multisample-and-resolve) pass to the triangle pipeline. -/
def passOpens (tr : List Event) : Nat :=
  tr.countP fun e =>
    match e with
    | .beginPass _ => true
    | .renderMeshes _ _ => true
    | _ => false

/-- A 10 by 10 physical rectangle used by the concrete frames below. -/
def exBounds : Rect := { x := 0, y := 0, width := 10, height := 10 }

/-- A layer holding a single quad. -/
def quadOnlyLayer : Layer :=
  { bounds := exBounds, quads := [7], meshes := [], images := [], text := [],
    pipelines := [] }

/-- A layer holding a single mesh. -/
def meshOnlyLayer : Layer :=
  { bounds := exBounds, quads := [], meshes := [3], images := [], text := [],
    pipelines := [] }

/-- A sub-1-pixel layer that nevertheless holds content of every kind. -/
def tinyLayer : Layer :=
  { bounds := { x := 2, y := 2, width := 0, height := 5 }, quads := [1],
    meshes := [2], images := [3], text := [4],
    pipelines := [{ id := 9, viewport := exBounds }] }

/-- A visible layer holding both a mesh and a custom-pipeline invocation. -/
def meshAndPipeLayer : Layer :=
  { bounds := exBounds, quads := [], meshes := [5], images := [], text := [],
    pipelines := [{ id := 9, viewport := exBounds }] }

lemma renderStep_eq (s : RenderState) (l : Layer) :
    renderStep s l =
      { quadLayer := s.quadLayer + qInc l
        triangleLayer := s.triangleLayer + mInc l
        imageLayer := s.imageLayer + iInc l
        textLayer := s.textLayer + tInc l
        events :=
          s.events
            ++ layerBlock s.quadLayer s.triangleLayer s.imageLayer
                s.textLayer l } := by
  obtain ⟨q, tr, im, tx, ev⟩ := s
  simp only [renderStep, layerBlock, qInc, mInc, iInc, tInc, rendersQuads,
    rendersMeshes, rendersImages, rendersText, culledB]
  by_cases hc : l.bounds.width = 0 ∨ l.bounds.height = 0
  · simp [hc]
  · by_cases h1 : l.quads = [] <;> by_cases h2 : l.meshes = [] <;>
      by_cases h3 : l.images = [] <;> by_cases h4 : l.text = [] <;>
      by_cases h5 : l.pipelines = [] <;>
      simp [hc, h1, h2, h3, h4, h5]

lemma foldl_renderStep_events (layers : List Layer) (s : RenderState) :
    (layers.foldl renderStep s).events =
      s.events
        ++ renderGo s.quadLayer s.triangleLayer s.imageLayer s.textLayer
            layers := by
  induction layers generalizing s with
  | nil => simp [renderGo]
  | cons l ls ih =>
      simp only [List.foldl_cons, renderGo, renderStep_eq s l, ih]
      simp

lemma render_eq (c : Option Color) (layers : List Layer) :
    render c layers =
      .beginPass (initLoad c) :: (renderGo 0 0 0 0 layers ++ [.endPass]) := by
  simp [render, foldl_renderStep_events]

lemma foldl_prepare_events (layers : List Layer) (acc : List Event) :
    layers.foldl (fun a layer => a ++ prepareLayerEvents layer) acc =
      acc ++ (layers.map prepareLayerEvents).flatten := by
  induction layers generalizing acc with
  | nil => simp
  | cons l ls ih => simp [ih]

lemma prepare_eq (layers : List Layer) :
    prepare layers = (layers.map prepareLayerEvents).flatten := by
  simp [prepare, foldl_prepare_events]

lemma culledB_iff (l : Layer) :
    culledB l = true ↔ l.bounds.width < 1 ∨ l.bounds.height < 1 := by
  simp [culledB]

lemma layerBlock_culled (q tr im tx : Nat) (l : Layer)
    (h : culledB l = true) : layerBlock q tr im tx l = [] := by
  have hc := (culledB_iff l).mp h
  unfold layerBlock
  rw [if_pos hc]

lemma prepareLayerEvents_culled (l : Layer) (h : culledB l = true) :
    prepareLayerEvents l = [] := by
  have hc := (culledB_iff l).mp h
  unfold prepareLayerEvents
  rw [if_pos hc]

lemma incs_culled (l : Layer) (h : culledB l = true) :
    qInc l = 0 ∧ mInc l = 0 ∧ iInc l = 0 ∧ tInc l = 0 := by
  simp [qInc, mInc, iInc, tInc, rendersQuads, rendersMeshes, rendersImages,
    rendersText, h]

lemma renderGo_cons_culled (q tr im tx : Nat) (l : Layer) (ls : List Layer)
    (h : culledB l = true) :
    renderGo q tr im tx (l :: ls) = renderGo q tr im tx ls := by
  obtain ⟨h1, h2, h3, h4⟩ := incs_culled l h
  simp [renderGo, layerBlock_culled q tr im tx l h, h1, h2, h3, h4]

lemma qCount_cons (l : Layer) (ls : List Layer) :
    qCount (l :: ls) = qInc l + qCount ls := by
  simp only [qCount, qInc, List.filter_cons]
  split_ifs <;> simp [Nat.add_comm]

lemma mCount_cons (l : Layer) (ls : List Layer) :
    mCount (l :: ls) = mInc l + mCount ls := by
  simp only [mCount, mInc, List.filter_cons]
  split_ifs <;> simp [Nat.add_comm]

lemma iCount_cons (l : Layer) (ls : List Layer) :
    iCount (l :: ls) = iInc l + iCount ls := by
  simp only [iCount, iInc, List.filter_cons]
  split_ifs <;> simp [Nat.add_comm]

lemma tCount_cons (l : Layer) (ls : List Layer) :
    tCount (l :: ls) = tInc l + tCount ls := by
  simp only [tCount, tInc, List.filter_cons]
  split_ifs <;> simp [Nat.add_comm]

lemma renderGo_append (ls1 ls2 : List Layer) (q tr im tx : Nat) :
    renderGo q tr im tx (ls1 ++ ls2) =
      renderGo q tr im tx ls1
        ++ renderGo (q + qCount ls1) (tr + mCount ls1) (im + iCount ls1)
            (tx + tCount ls1) ls2 := by
  induction ls1 generalizing q tr im tx with
  | nil => simp [renderGo, qCount, mCount, iCount, tCount]
  | cons l ls ih =>
      simp only [List.cons_append, renderGo, List.append_eq]
      rw [ih]
      simp [qCount_cons, mCount_cons, iCount_cons, tCount_cons,
        Nat.add_assoc, List.append_assoc]

lemma mem_pipelineEvents {e : Event} {ps : List Pipe}
    (h : e ∈ pipelineEvents ps) : ∃ p, e = .renderPipeline p p.viewport := by
  simp only [pipelineEvents, List.mem_filterMap] at h
  obtain ⟨p, _, hp⟩ := h
  by_cases hv : p.viewport.width < 1 ∨ p.viewport.height < 1
  · rw [if_pos hv] at hp
    exact Option.noConfusion hp
  · rw [if_neg hv] at hp
    exact ⟨p, (Option.some_inj.mp hp).symm⟩

lemma filterMap_pipelineEvents_nil {α : Type} (f : Event → Option α)
    (hf : ∀ p v, f (.renderPipeline p v) = none) (ps : List Pipe) :
    (pipelineEvents ps).filterMap f = [] := by
  rw [List.filterMap_eq_nil_iff]
  intro e he
  obtain ⟨p, rfl⟩ := mem_pipelineEvents he
  exact hf p p.viewport

lemma pCount_cons (l : Layer) (ls : List Layer) :
    pCount (l :: ls) = pInc l + pCount ls := by
  simp only [pCount, pInc, List.filter_cons]
  split_ifs <;> simp [Nat.add_comm]

lemma beginOps_layerBlock (q tr im tx : Nat) (l : Layer) :
    beginOps (layerBlock q tr im tx l) =
      List.replicate (mInc l + pInc l) LoadOp.load := by
  have hpe := filterMap_pipelineEvents_nil
    (fun e =>
      match e with
      | .beginPass op => some op
      | _ => none)
    (fun p v => rfl) l.pipelines
  simp only [layerBlock, beginOps, mInc, pInc, rendersMeshes, rendersPipes,
    culledB] at hpe ⊢
  split_ifs <;> simp_all [List.filterMap_append]

lemma quadIndices_layerBlock (q tr im tx : Nat) (l : Layer) :
    quadIndices (layerBlock q tr im tx l) =
      if rendersQuads l then [q] else [] := by
  have hpe := filterMap_pipelineEvents_nil
    (fun e =>
      match e with
      | .renderQuads i _ _ => some i
      | _ => none)
    (fun p v => rfl) l.pipelines
  simp only [layerBlock, quadIndices, rendersQuads, culledB] at hpe ⊢
  split_ifs <;> simp_all [List.filterMap_append]

lemma triangleIndices_layerBlock (q tr im tx : Nat) (l : Layer) :
    triangleIndices (layerBlock q tr im tx l) =
      if rendersMeshes l then [tr] else [] := by
  have hpe := filterMap_pipelineEvents_nil
    (fun e =>
      match e with
      | .renderMeshes i _ => some i
      | _ => none)
    (fun p v => rfl) l.pipelines
  simp only [layerBlock, triangleIndices, rendersMeshes, culledB] at hpe ⊢
  split_ifs <;> simp_all [List.filterMap_append]

lemma imageIndices_layerBlock (q tr im tx : Nat) (l : Layer) :
    imageIndices (layerBlock q tr im tx l) =
      if rendersImages l then [im] else [] := by
  have hpe := filterMap_pipelineEvents_nil
    (fun e =>
      match e with
      | .renderImages i _ => some i
      | _ => none)
    (fun p v => rfl) l.pipelines
  simp only [layerBlock, imageIndices, rendersImages, culledB] at hpe ⊢
  split_ifs <;> simp_all [List.filterMap_append]

lemma textIndices_layerBlock (q tr im tx : Nat) (l : Layer) :
    textIndices (layerBlock q tr im tx l) =
      if rendersText l then [tx] else [] := by
  have hpe := filterMap_pipelineEvents_nil
    (fun e =>
      match e with
      | .renderText i _ => some i
      | _ => none)
    (fun p v => rfl) l.pipelines
  simp only [layerBlock, textIndices, rendersText, culledB] at hpe ⊢
  split_ifs <;> simp_all [List.filterMap_append]

lemma beginOps_append (a b : List Event) :
    beginOps (a ++ b) = beginOps a ++ beginOps b := by
  simp [beginOps]

lemma quadIndices_append (a b : List Event) :
    quadIndices (a ++ b) = quadIndices a ++ quadIndices b := by
  simp [quadIndices]

lemma triangleIndices_append (a b : List Event) :
    triangleIndices (a ++ b) = triangleIndices a ++ triangleIndices b := by
  simp [triangleIndices]

lemma imageIndices_append (a b : List Event) :
    imageIndices (a ++ b) = imageIndices a ++ imageIndices b := by
  simp [imageIndices]

lemma textIndices_append (a b : List Event) :
    textIndices (a ++ b) = textIndices a ++ textIndices b := by
  simp [textIndices]

lemma beginOps_renderGo (ls : List Layer) (q tr im tx : Nat) :
    beginOps (renderGo q tr im tx ls) =
      List.replicate (mCount ls + pCount ls) LoadOp.load := by
  induction ls generalizing q tr im tx with
  | nil => simp [renderGo, beginOps, mCount, pCount]
  | cons l ls ih =>
      rw [renderGo, beginOps_append, beginOps_layerBlock, ih, mCount_cons,
        pCount_cons, ← List.replicate_add]
      congr 1
      omega

lemma quadIndices_renderGo (ls : List Layer) (q tr im tx : Nat) :
    quadIndices (renderGo q tr im tx ls) = List.range' q (qCount ls) := by
  induction ls generalizing q tr im tx with
  | nil => simp [renderGo, quadIndices, qCount]
  | cons l ls ih =>
      rw [renderGo, quadIndices_append, quadIndices_layerBlock, ih,
        qCount_cons]
      by_cases h : rendersQuads l
      · simp [h, qInc, Nat.add_comm, List.range'_succ]
      · simp [h, qInc]

lemma triangleIndices_renderGo (ls : List Layer) (q tr im tx : Nat) :
    triangleIndices (renderGo q tr im tx ls) = List.range' tr (mCount ls) := by
  induction ls generalizing q tr im tx with
  | nil => simp [renderGo, triangleIndices, mCount]
  | cons l ls ih =>
      rw [renderGo, triangleIndices_append, triangleIndices_layerBlock, ih,
        mCount_cons]
      by_cases h : rendersMeshes l
      · simp [h, mInc, Nat.add_comm, List.range'_succ]
      · simp [h, mInc]

lemma imageIndices_renderGo (ls : List Layer) (q tr im tx : Nat) :
    imageIndices (renderGo q tr im tx ls) = List.range' im (iCount ls) := by
  induction ls generalizing q tr im tx with
  | nil => simp [renderGo, imageIndices, iCount]
  | cons l ls ih =>
      rw [renderGo, imageIndices_append, imageIndices_layerBlock, ih,
        iCount_cons]
      by_cases h : rendersImages l
      · simp [h, iInc, Nat.add_comm, List.range'_succ]
      · simp [h, iInc]

lemma textIndices_renderGo (ls : List Layer) (q tr im tx : Nat) :
    textIndices (renderGo q tr im tx ls) = List.range' tx (tCount ls) := by
  induction ls generalizing q tr im tx with
  | nil => simp [renderGo, textIndices, tCount]
  | cons l ls ih =>
      rw [renderGo, textIndices_append, textIndices_layerBlock, ih,
        tCount_cons]
      by_cases h : rendersText l
      · simp [h, tInc, Nat.add_comm, List.range'_succ]
      · simp [h, tInc]

lemma drawKinds_pipelineEvents (ps : List Pipe) :
    (pipelineEvents ps).filterMap drawKind =
      List.replicate (visiblePipes ps).length Kind.custom := by
  induction ps with
  | nil => rfl
  | cons p ps ih =>
      by_cases hw : p.viewport.width = 0
      · simpa [pipelineEvents, List.filterMap_cons, hw, visiblePipes,
          List.filter_cons, Nat.lt_one_iff] using ih
      · by_cases hh : p.viewport.height = 0
        · simpa [pipelineEvents, List.filterMap_cons, hw, hh, visiblePipes,
            List.filter_cons, Nat.lt_one_iff] using ih
        · simpa [pipelineEvents, List.filterMap_cons, hw, hh, visiblePipes,
            List.filter_cons, drawKind, List.replicate_succ,
            Nat.lt_one_iff] using ih

lemma drawKinds_layerBlock (q tr im tx : Nat) (l : Layer) :
    (layerBlock q tr im tx l).filterMap drawKind = kindSig l := by
  have hpe := drawKinds_pipelineEvents l.pipelines
  simp only [layerBlock, kindSig, culledB]
  split_ifs <;> simp_all [List.filterMap_append, drawKind, visiblePipes]

lemma kindSig_sorted (l : Layer) :
    List.Pairwise (fun a b => kindRank a ≤ kindRank b) (kindSig l) := by
  simp only [kindSig]
  split_ifs <;>
    simp_all [List.pairwise_append, List.mem_replicate,
      List.pairwise_replicate, kindRank]

lemma pipelineEvents_all_pass (ps : List Pipe) :
    (pipelineEvents ps).all isPassEvent = true := by
  rw [List.all_eq_true]
  intro e he
  obtain ⟨p, rfl⟩ := mem_pipelineEvents he
  rfl

lemma layerBlock_all_pass (q tr im tx : Nat) (l : Layer) :
    (layerBlock q tr im tx l).all isPassEvent = true := by
  have hpe := pipelineEvents_all_pass l.pipelines
  simp only [layerBlock]
  split_ifs <;> simp_all [List.all_append, isPassEvent]

lemma renderGo_all_pass (ls : List Layer) (q tr im tx : Nat) :
    (renderGo q tr im tx ls).all isPassEvent = true := by
  induction ls generalizing q tr im tx with
  | nil => rfl
  | cons l ls ih =>
      rw [renderGo, List.all_append, layerBlock_all_pass, ih]
      rfl

lemma render_all_pass (c : Option Color) (ls : List Layer) :
    (render c ls).all isPassEvent = true := by
  rw [render_eq]
  simp [List.all_append, renderGo_all_pass, isPassEvent]

lemma prepareLayerEvents_all_prep (l : Layer) :
    (prepareLayerEvents l).all isPrepEvent = true := by
  simp only [prepareLayerEvents]
  split_ifs <;>
    simp_all [List.all_append, isPrepEvent, List.all_map, Function.comp]

lemma prepare_all_prep (layers : List Layer) :
    (prepare layers).all isPrepEvent = true := by
  rw [prepare_eq, List.all_eq_true]
  intro e he
  rw [List.mem_flatten] at he
  obtain ⟨sub, hsub, hse⟩ := he
  rw [List.mem_map] at hsub
  obtain ⟨l, _, rfl⟩ := hsub
  exact List.all_eq_true.mp (prepareLayerEvents_all_prep l) e hse

lemma prep_event_only (e : Event) (h : isPrepEvent e = true) :
    isPassEvent e = false ∧ isFinishEvent e = false
      ∧ isEndFrameEvent e = false := by
  cases e <;> simp_all [isPrepEvent, isPassEvent, isFinishEvent,
    isEndFrameEvent]

lemma pass_event_only (e : Event) (h : isPassEvent e = true) :
    isPrepEvent e = false ∧ isFinishEvent e = false
      ∧ isEndFrameEvent e = false := by
  cases e <;> simp_all [isPrepEvent, isPassEvent, isFinishEvent,
    isEndFrameEvent]

lemma renderGo_culled (ls : List Layer) (h : ls.all culledB = true)
    (q tr im tx : Nat) : renderGo q tr im tx ls = [] := by
  induction ls with
  | nil => rfl
  | cons l ls ih =>
      rw [List.all_cons, Bool.and_eq_true] at h
      rw [renderGo_cons_culled q tr im tx l ls h.1]
      exact ih h.2

lemma all_imp {l : List Event} {p q : Event → Bool} (h : l.all p = true)
    (hpq : ∀ e, p e = true → q e = true) : l.all q = true := by
  rw [List.all_eq_true] at h ⊢
  exact fun e he => hpq e (h e he)

lemma count_zero_of_all {x : Event} {l : List Event} {p : Event → Bool}
    (h : l.all p = true) (hx : p x = false) : l.count x = 0 := by
  rw [List.count_eq_zero]
  intro hm
  have hp := List.all_eq_true.mp h x hm
  rw [hp] at hx
  cases hx

lemma layerBlock_mesh_split (q tr im tx : Nat) (l : Layer)
    (hc : culledB l = false) (hm : l.meshes.isEmpty = false) :
    layerBlock q tr im tx l =
      (if l.quads.isEmpty then [] else [.renderQuads q l.bounds l.quads])
        ++ [.endPass, .renderMeshes tr l.meshes, .beginPass .load]
        ++ ((if l.images.isEmpty then [] else [.renderImages im l.bounds])
            ++ (if l.text.isEmpty then [] else [.renderText tx l.bounds])
            ++ (if l.pipelines.isEmpty then []
                else [.endPass] ++ pipelineEvents l.pipelines
                  ++ [.beginPass .load])) := by
  have hc' : ¬(l.bounds.width < 1 ∨ l.bounds.height < 1) := by
    intro hx
    rw [(culledB_iff l).mpr hx] at hc
    cases hc
  rw [layerBlock, if_neg hc']
  have hm' : ¬l.meshes.isEmpty = true := by simp [hm]
  rw [if_neg hm']
  simp [List.append_assoc]

lemma layerBlock_pipes_split (q tr im tx : Nat) (l : Layer)
    (hc : culledB l = false) (hp : l.pipelines.isEmpty = false) :
    layerBlock q tr im tx l =
      ((if l.quads.isEmpty then [] else [.renderQuads q l.bounds l.quads])
        ++ (if l.meshes.isEmpty then []
            else [.endPass, .renderMeshes tr l.meshes, .beginPass .load])
        ++ (if l.images.isEmpty then [] else [.renderImages im l.bounds])
        ++ (if l.text.isEmpty then [] else [.renderText tx l.bounds]))
        ++ ([.endPass] ++ pipelineEvents l.pipelines
          ++ [.beginPass .load]) := by
  have hc' : ¬(l.bounds.width < 1 ∨ l.bounds.height < 1) := by
    intro hx
    rw [(culledB_iff l).mpr hx] at hc
    cases hc
  rw [layerBlock, if_neg hc']
  have hp' : ¬l.pipelines.isEmpty = true := by simp [hp]
  rw [if_neg hp']

lemma beginOps_render (c : Option Color) (ls : List Layer) :
    beginOps (render c ls) =
      initLoad c :: List.replicate (mCount ls + pCount ls) LoadOp.load := by
  rw [render_eq,
    show Event.beginPass (initLoad c)
        :: (renderGo 0 0 0 0 ls ++ [Event.endPass]) =
      [Event.beginPass (initLoad c)]
        ++ (renderGo 0 0 0 0 ls ++ [Event.endPass]) from rfl,
    beginOps_append, beginOps_append, beginOps_renderGo]
  simp [beginOps]

lemma presentEvents_shape (gen : List Layer) (ot : List String) (ov : Layer)
    (c : Option Color) :
    presentEvents gen ot ov c =
      (prepare (presentLayers gen ot ov)
          ++ .stagingFinish :: render c (presentLayers gen ot ov))
        ++ [.endFrame .quad, .endFrame .text, .endFrame .triangle,
            .endFrame .image] := by
  simp [presentEvents]

/-- Claim C1: for every layer list, both the prepare phase and the render
phase visit the layers in exactly the order of the list: each phase's trace
is the in-order concatenation of one event block per layer (the render loop
threading its counters left to right), so no layer is sorted, reordered or
revisited. -/
theorem backend_layer_order (c : Option Color) (layers : List Layer)
    (q tr im tx : Nat) (l : Layer) (ls : List Layer) :
    prepare layers = (layers.map prepareLayerEvents).flatten
  ∧ render c layers =
      .beginPass (initLoad c) :: (renderGo 0 0 0 0 layers ++ [.endPass])
  ∧ renderGo q tr im tx [] = []
  ∧ renderGo q tr im tx (l :: ls) =
      layerBlock q tr im tx l
        ++ renderGo (q + qInc l) (tr + mInc l) (im + iInc l) (tx + tInc l)
            ls :=
  ⟨prepare_eq layers, render_eq c layers, rfl, rfl⟩

/-- Claim C2: within every rendered layer, draw calls are emitted in the
fixed kind-order quad, mesh, image, text, custom pipeline: any layer's
render block projects onto exactly `kindSig`, the signature written in that
fixed order, and that signature is sorted by `kindRank` for every input. -/
theorem backend_kind_order (c : Option Color) (layers : List Layer)
    (q tr im tx : Nat) (l : Layer) :
    render c layers =
      .beginPass (initLoad c) :: (renderGo 0 0 0 0 layers ++ [.endPass])
  ∧ (layerBlock q tr im tx l).filterMap drawKind = kindSig l
  ∧ List.Pairwise (fun a b => kindRank a ≤ kindRank b) (kindSig l) :=
  ⟨render_eq c layers, drawKinds_layerBlock q tr im tx l, kindSig_sorted l⟩

/-- Claim C5: the frame's first render pass clears with exactly the
caller's color when `clear_color` is some, and loads existing contents when
it is none; every later pass of the frame loads, so the clear choice is
made only at the initial pass. -/
theorem backend_initial_load_op (col : Color) (c : Option Color)
    (layers : List Layer) :
    (render (some col) layers).head? = some (.beginPass (.clear col))
  ∧ (render none layers).head? = some (.beginPass .load)
  ∧ beginOps (render c layers) =
      initLoad c
        :: List.replicate (mCount layers + pCount layers) LoadOp.load := by
  refine ⟨?_, ?_, ?_⟩
  · rw [render_eq]
    rfl
  · rw [render_eq]
    rfl
  · rw [render_eq,
      show Event.beginPass (initLoad c)
          :: (renderGo 0 0 0 0 layers ++ [Event.endPass]) =
        [Event.beginPass (initLoad c)]
          ++ (renderGo 0 0 0 0 layers ++ [Event.endPass]) from rfl,
      beginOps_append, beginOps_append, beginOps_renderGo]
    simp [beginOps]

/-- Claim C8: per pipeline kind, the layer indices passed to `render` form
the sequence 0, 1, 2, ... over the rendered layers containing that kind, in
render order; the four kinds count in independent numbering spaces. -/
theorem backend_layer_indices (c : Option Color) (layers : List Layer) :
    quadIndices (render c layers) = List.range (qCount layers)
  ∧ triangleIndices (render c layers) = List.range (mCount layers)
  ∧ imageIndices (render c layers) = List.range (iCount layers)
  ∧ textIndices (render c layers) = List.range (tCount layers) := by
  have hsplit : render c layers =
      [Event.beginPass (initLoad c)]
        ++ (renderGo 0 0 0 0 layers ++ [Event.endPass]) := render_eq c layers
  refine ⟨?_, ?_, ?_, ?_⟩
  · rw [hsplit, quadIndices_append, quadIndices_append, quadIndices_renderGo,
      List.range_eq_range']
    simp [quadIndices]
  · rw [hsplit, triangleIndices_append, triangleIndices_append,
      triangleIndices_renderGo, List.range_eq_range']
    simp [triangleIndices]
  · rw [hsplit, imageIndices_append, imageIndices_append,
      imageIndices_renderGo, List.range_eq_range']
    simp [imageIndices]
  · rw [hsplit, textIndices_append, textIndices_append, textIndices_renderGo,
      List.range_eq_range']
    simp [textIndices]

/-- Claim C9: `present` appends the synthetic overlay layer as last element
of the layer sequence exactly when `overlay_text` is non-empty, whatever
the generated layers are; with empty overlay text the sequence is
unchanged. -/
theorem backend_overlay_last (gen : List Layer) (ot : List String)
    (ov : Layer) :
    presentLayers gen ot ov = (if ot.isEmpty then gen else gen ++ [ov])
  ∧ (presentLayers gen ot ov).getLast? =
      (if ot.isEmpty then gen.getLast? else some ov)
  ∧ (presentLayers gen ot ov).dropLast = (if ot.isEmpty then gen.dropLast
      else gen) := by
  unfold presentLayers
  by_cases h : ot.isEmpty
  · simp [h]
  · simp [h]

/-- Claim C10: `render` opens one shared pass before the layer loop and
ends one after it even when the list is empty or every layer is culled by
the sub-1-pixel check, so such a frame with a clear color still records the
clearing pass and zero draw calls. -/
theorem backend_pass_always_open (c : Option Color) (col : Color)
    (layers : List Layer) (hcull : layers.all culledB = true) :
    render c [] = [.beginPass (initLoad c), .endPass]
  ∧ render c layers = [.beginPass (initLoad c), .endPass]
  ∧ render (some col) layers = [.beginPass (.clear col), .endPass]
  ∧ (render (some col) layers).filterMap drawKind = [] := by
  have h2 : render c layers = [.beginPass (initLoad c), .endPass] := by
    rw [render_eq, renderGo_culled layers hcull]
    rfl
  have h3 : render (some col) layers =
      [.beginPass (.clear col), .endPass] := by
    rw [render_eq, renderGo_culled layers hcull]
    rfl
  refine ⟨?_, h2, h3, ?_⟩
  · rw [render_eq]
    rfl
  · rw [h3]
    rfl

/-- Witness for C10 at a concrete frame: one sub-1-pixel layer full of
content is culled, leaving only the clearing pass and no draws. -/
theorem backend_pass_always_open_witness :
    render none [] = [.beginPass (initLoad none), .endPass]
  ∧ render none [tinyLayer] = [.beginPass (initLoad none), .endPass]
  ∧ render (some ⟨5⟩) [tinyLayer] = [.beginPass (.clear ⟨5⟩), .endPass]
  ∧ (render (some ⟨5⟩) [tinyLayer]).filterMap drawKind = [] :=
  backend_pass_always_open none ⟨5⟩ [tinyLayer] (by decide)

/-- Claim C3: when a rendered layer contains meshes or custom-pipeline
invocations, the trace shows the open shared pass ending immediately before
the delegated draws and a fresh shared pass beginning with load (never
clear) immediately after; all passes opened after the first load, and the
concrete frame [quad-layer, mesh-layer, quad-layer] records exactly three
pass segments, the second quad layer drawing into a loading pass. -/
theorem backend_pass_reopen (c : Option Color) (layers : List Layer)
    (l : Layer) (hmem : l ∈ layers) (hcull : culledB l = false) :
    (l.meshes.isEmpty = false →
      ∃ pre i post, render c layers =
        pre ++ [.endPass, .renderMeshes i l.meshes, .beginPass .load]
          ++ post)
  ∧ (l.pipelines.isEmpty = false →
      ∃ pre post, render c layers =
        pre ++ ([.endPass] ++ pipelineEvents l.pipelines
          ++ [.beginPass .load]) ++ post)
  ∧ beginOps (render c layers) =
      initLoad c
        :: List.replicate (mCount layers + pCount layers) LoadOp.load
  ∧ render (some ⟨0⟩) [quadOnlyLayer, meshOnlyLayer, quadOnlyLayer] =
      [.beginPass (.clear ⟨0⟩), .renderQuads 0 exBounds [7], .endPass,
       .renderMeshes 0 [3], .beginPass .load, .renderQuads 1 exBounds [7],
       .endPass]
  ∧ passOpens (render (some ⟨0⟩)
        [quadOnlyLayer, meshOnlyLayer, quadOnlyLayer]) = 3 := by
  obtain ⟨ls1, ls2, rfl⟩ := List.append_of_mem hmem
  refine ⟨?_, ?_, beginOps_render c _, rfl, rfl⟩
  · intro hm
    have hren := render_eq c (ls1 ++ l :: ls2)
    rw [renderGo_append, renderGo,
      layerBlock_mesh_split (0 + qCount ls1) (0 + mCount ls1)
        (0 + iCount ls1) (0 + tCount ls1) l hcull hm] at hren
    refine ⟨Event.beginPass (initLoad c)
        :: (renderGo 0 0 0 0 ls1
          ++ (if l.quads.isEmpty then []
              else [Event.renderQuads (0 + qCount ls1) l.bounds l.quads])),
      0 + mCount ls1,
      ((if l.images.isEmpty then []
          else [Event.renderImages (0 + iCount ls1) l.bounds])
        ++ (if l.text.isEmpty then []
            else [Event.renderText (0 + tCount ls1) l.bounds])
        ++ (if l.pipelines.isEmpty then []
            else [Event.endPass] ++ pipelineEvents l.pipelines
              ++ [Event.beginPass LoadOp.load]))
        ++ renderGo (0 + qCount ls1 + qInc l) (0 + mCount ls1 + mInc l)
            (0 + iCount ls1 + iInc l) (0 + tCount ls1 + tInc l) ls2
        ++ [Event.endPass], ?_⟩
    rw [hren]
    simp [List.append_assoc]
  · intro hp
    have hren := render_eq c (ls1 ++ l :: ls2)
    rw [renderGo_append, renderGo,
      layerBlock_pipes_split (0 + qCount ls1) (0 + mCount ls1)
        (0 + iCount ls1) (0 + tCount ls1) l hcull hp] at hren
    refine ⟨Event.beginPass (initLoad c)
        :: (renderGo 0 0 0 0 ls1
          ++ ((if l.quads.isEmpty then []
              else [Event.renderQuads (0 + qCount ls1) l.bounds l.quads])
            ++ (if l.meshes.isEmpty then []
                else [Event.endPass,
                  Event.renderMeshes (0 + mCount ls1) l.meshes,
                  Event.beginPass LoadOp.load])
            ++ (if l.images.isEmpty then []
                else [Event.renderImages (0 + iCount ls1) l.bounds])
            ++ (if l.text.isEmpty then []
                else [Event.renderText (0 + tCount ls1) l.bounds]))),
      renderGo (0 + qCount ls1 + qInc l) (0 + mCount ls1 + mInc l)
          (0 + iCount ls1 + iInc l) (0 + tCount ls1 + tInc l) ls2
        ++ [Event.endPass], ?_⟩
    rw [hren]
    simp [List.append_assoc]

/-- Witness for C3: in a one-layer frame whose layer holds a mesh and a
custom pipeline, the pass-reopen protocol and the load-only reopening are
realized. -/
theorem backend_pass_reopen_witness :
    (∃ pre i post, render none [meshAndPipeLayer] =
      pre ++ [.endPass, .renderMeshes i meshAndPipeLayer.meshes,
        .beginPass .load] ++ post)
  ∧ (∃ pre post, render none [meshAndPipeLayer] =
      pre ++ ([.endPass] ++ pipelineEvents meshAndPipeLayer.pipelines
        ++ [.beginPass .load]) ++ post)
  ∧ beginOps (render none [meshAndPipeLayer]) =
      initLoad none
        :: List.replicate
            (mCount [meshAndPipeLayer] + pCount [meshAndPipeLayer])
            LoadOp.load := by
  obtain ⟨h1, h2, h3, _, _⟩ := backend_pass_reopen none [meshAndPipeLayer]
    meshAndPipeLayer (List.mem_singleton.mpr rfl) (by decide)
  exact ⟨h1 (by decide), h2 (by decide), h3⟩

/-- Claim C4: a layer whose physical bounds are sub-1-pixel is skipped
entirely by both phases (its prepare block is empty and the render step
leaves counters and events untouched), and deleting it from the layer list
leaves both traces unchanged, so later layers' per-kind indices stay
consecutive over the rendered layers only. -/
theorem backend_tiny_layer_skip (c : Option Color) (ls1 ls2 : List Layer)
    (l : Layer) (s : RenderState) (hl : culledB l = true) :
    prepare (ls1 ++ l :: ls2) = prepare (ls1 ++ ls2)
  ∧ render c (ls1 ++ l :: ls2) = render c (ls1 ++ ls2)
  ∧ prepareLayerEvents l = []
  ∧ renderStep s l = s := by
  have hc := (culledB_iff l).mp hl
  refine ⟨?_, ?_, prepareLayerEvents_culled l hl, ?_⟩
  · rw [prepare_eq, prepare_eq]
    simp [prepareLayerEvents_culled l hl]
  · rw [render_eq, render_eq, renderGo_append, renderGo_append,
      renderGo_cons_culled _ _ _ _ _ _ hl]
  · unfold renderStep
    rw [if_pos hc]

/-- Witness for C4: dropping a concrete sub-1-pixel layer from between a
quad layer and a mesh layer changes neither trace. -/
theorem backend_tiny_layer_skip_witness :
    prepare ([quadOnlyLayer] ++ tinyLayer :: [meshOnlyLayer]) =
      prepare ([quadOnlyLayer] ++ [meshOnlyLayer])
  ∧ render none ([quadOnlyLayer] ++ tinyLayer :: [meshOnlyLayer]) =
      render none ([quadOnlyLayer] ++ [meshOnlyLayer])
  ∧ prepareLayerEvents tinyLayer = []
  ∧ renderStep
      { quadLayer := 0, triangleLayer := 0, imageLayer := 0, textLayer := 0,
        events := [] } tinyLayer =
      { quadLayer := 0, triangleLayer := 0, imageLayer := 0, textLayer := 0,
        events := [] } :=
  backend_tiny_layer_skip none [quadOnlyLayer] [meshOnlyLayer] tinyLayer
    { quadLayer := 0, triangleLayer := 0, imageLayer := 0, textLayer := 0,
      events := [] } (by decide)

/-- Claim C6: in every `present` the staging belt's `finish` occurs exactly
once, strictly after all prepare-phase events of the frame (everything
before it is a prepare call, never a pass command) and strictly before all
render-pass commands (nothing after it is a prepare call or another
finish). -/
theorem backend_staging_finish_once (gen : List Layer) (ot : List String)
    (ov : Layer) (c : Option Color) :
    presentEvents gen ot ov c =
      prepare (presentLayers gen ot ov)
        ++ .stagingFinish
          :: (render c (presentLayers gen ot ov)
            ++ [.endFrame .quad, .endFrame .text, .endFrame .triangle,
                .endFrame .image])
  ∧ (presentEvents gen ot ov c).count .stagingFinish = 1
  ∧ (prepare (presentLayers gen ot ov)).all isPrepEvent = true
  ∧ (prepare (presentLayers gen ot ov)).all
      (fun e => !isPassEvent e && !isFinishEvent e) = true
  ∧ (render c (presentLayers gen ot ov)).all
      (fun e => !isPrepEvent e && !isFinishEvent e) = true := by
  have hshape : presentEvents gen ot ov c =
      prepare (presentLayers gen ot ov)
        ++ .stagingFinish
          :: (render c (presentLayers gen ot ov)
            ++ [.endFrame .quad, .endFrame .text, .endFrame .triangle,
                .endFrame .image]) := by
    simp [presentEvents]
  have hprep := prepare_all_prep (presentLayers gen ot ov)
  have hprep2 : (prepare (presentLayers gen ot ov)).all
      (fun e => !isPassEvent e && !isFinishEvent e) = true := by
    refine all_imp hprep fun e he => ?_
    obtain ⟨h1, h2, _⟩ := prep_event_only e he
    rw [h1, h2]
    rfl
  have hrend : (render c (presentLayers gen ot ov)).all
      (fun e => !isPrepEvent e && !isFinishEvent e) = true := by
    refine all_imp (render_all_pass c (presentLayers gen ot ov))
      fun e he => ?_
    obtain ⟨h1, h2, _⟩ := pass_event_only e he
    rw [h1, h2]
    rfl
  refine ⟨hshape, ?_, hprep, hprep2, hrend⟩
  have h0 : (prepare (presentLayers gen ot ov)).count
      Event.stagingFinish = 0 := count_zero_of_all hprep2 rfl
  have h1 : (render c (presentLayers gen ot ov)).count
      Event.stagingFinish = 0 := count_zero_of_all hrend rfl
  rw [hshape, List.count_append, h0, List.count_cons, List.count_append,
    h1]
  rfl

/-- Claim C7: every `present` calls `end_frame` exactly once per pipeline
kind (quad, text, triangle, image), as the four final events after all
rendering with no earlier end-frame call, even for kinds that drew no
layer; folding the spec-modelled pipeline counters over the frame ends
with every per-kind layer-index counter at zero, from any starting
state. -/
theorem backend_end_frame_reset (gen : List Layer) (ot : List String)
    (ov : Layer) (c : Option Color) (c0 : PipeCounters) :
    (presentEvents gen ot ov c).count (.endFrame .quad) = 1
  ∧ (presentEvents gen ot ov c).count (.endFrame .text) = 1
  ∧ (presentEvents gen ot ov c).count (.endFrame .triangle) = 1
  ∧ (presentEvents gen ot ov c).count (.endFrame .image) = 1
  ∧ (∃ pre, presentEvents gen ot ov c =
      pre ++ [.endFrame .quad, .endFrame .text, .endFrame .triangle,
              .endFrame .image]
      ∧ pre.all (fun e => !isEndFrameEvent e) = true)
  ∧ (presentEvents gen ot ov c).foldl counterStep c0 =
      { quad := 0, text := 0, triangle := 0, image := 0 } := by
  have hshape := presentEvents_shape gen ot ov c
  have hpre : (prepare (presentLayers gen ot ov)
      ++ .stagingFinish :: render c (presentLayers gen ot ov)).all
      (fun e => !isEndFrameEvent e) = true := by
    rw [List.all_append]
    have ha : (prepare (presentLayers gen ot ov)).all
        (fun e => !isEndFrameEvent e) = true := by
      refine all_imp (prepare_all_prep (presentLayers gen ot ov))
        fun e he => ?_
      rw [(prep_event_only e he).2.2]
      rfl
    have hb : (render c (presentLayers gen ot ov)).all
        (fun e => !isEndFrameEvent e) = true := by
      refine all_imp (render_all_pass c (presentLayers gen ot ov))
        fun e he => ?_
      rw [(pass_event_only e he).2.2]
      rfl
    rw [ha, List.all_cons, hb]
    rfl
  have hcount : ∀ k : PKind,
      (presentEvents gen ot ov c).count (.endFrame k) =
        ([Event.endFrame .quad, .endFrame .text, .endFrame .triangle,
          .endFrame .image]).count (.endFrame k) := by
    intro k
    rw [hshape, List.count_append,
      count_zero_of_all hpre (show (fun e => !isEndFrameEvent e)
        (Event.endFrame k) = false from rfl)]
    rw [Nat.zero_add]
  refine ⟨?_, ?_, ?_, ?_, ⟨_, hshape, hpre⟩, ?_⟩
  · rw [hcount .quad]
    rfl
  · rw [hcount .text]
    rfl
  · rw [hcount .triangle]
    rfl
  · rw [hcount .image]
    rfl
  · rw [hshape, List.foldl_append]
    rfl
